import Mathlib

/-!
Shallow embedding of the attendance backend (Express + PostgreSQL).

The two entry files expose the same routes over two tables:

* `employees (emp_id TEXT PRIMARY KEY, name TEXT, created_at, updated_at)`
* `attendance_records (id SERIAL PRIMARY KEY, emp_id, emp_name,
  attendance_type, date, timestamp, FOREIGN KEY (emp_id), UNIQUE (emp_id, date))`

Tables are lists of rows, the SERIAL sequence is an explicit `nextId`
counter, `CURRENT_TIMESTAMP` is an explicit `now : Nat` input, and calendar
dates are ISO `YYYY-MM-DD` strings compared with the lexicographic string
order (which agrees with the calendar order on valid ISO dates).  Fallible
statements return `Except`; storage-engine failures inside the write
transaction are injected through explicit oracle arguments.
-/

namespace Attendance

/-- A row of the `employees` table. -/
structure Employee where
  emp_id : String
  name : String
  created_at : Nat
  updated_at : Nat
  deriving Repr, DecidableEq

/-- A row of the `attendance_records` table. -/
structure AttendanceRecord where
  id : Nat
  emp_id : String
  emp_name : String
  attendance_type : String
  date : String
  timestamp : Nat
  deriving Repr, DecidableEq

/-- The persistent state: both tables plus the `SERIAL` sequence for
`attendance_records.id`. -/
structure DB where
  employees : List Employee
  records : List AttendanceRecord
  nextId : Nat
  deriving Repr, DecidableEq

/-- The state right after `CREATE TABLE`: empty tables, sequence at 1. -/
def emptyDB : DB := { employees := [], records := [], nextId := 1 }

/-- JavaScript truthiness test used by the route-level validation
(`if (!emp_id || !name)`): an absent field and the empty string are falsy,
every other string is truthy. -/
def falsy : Option String → Bool
  | none => true
  | some s => s == ""

/-- `INSERT INTO employees (emp_id, name, updated_at) VALUES ($1, $2,
CURRENT_TIMESTAMP) ON CONFLICT (emp_id) DO UPDATE SET name = $2,
updated_at = CURRENT_TIMESTAMP`. -/
def upsertEmployeeStmt (db : DB) (i n : String) (now : Nat) : DB :=
  if db.employees.any (fun e => e.emp_id == i) then
    { db with employees :=
        db.employees.map (fun e =>
          if e.emp_id == i then { e with name := n, updated_at := now } else e) }
  else
    { db with employees :=
        db.employees ++ [{ emp_id := i, name := n, created_at := now, updated_at := now }] }

/-- The `UNIQUE (emp_id, date)` conflict target. -/
def keyMatch (i d : String) (r : AttendanceRecord) : Bool :=
  r.emp_id == i && r.date == d

/-- `INSERT INTO attendance_records (emp_id, emp_name, attendance_type, date)
VALUES ($1, $2, $3, $4) ON CONFLICT (emp_id, date) DO UPDATE SET
emp_name = $2, attendance_type = $3, timestamp = CURRENT_TIMESTAMP
RETURNING id`, including the `FOREIGN KEY (emp_id) REFERENCES employees`
check that fires when a fresh row is inserted. -/
def upsertRecordStmt (db : DB) (i n ty d : String) (now : Nat) :
    Except String (DB × Nat) :=
  match db.records.find? (keyMatch i d) with
  | some r =>
      .ok ({ db with records :=
              db.records.map (fun r0 =>
                if keyMatch i d r0 then
                  { r0 with emp_name := n, attendance_type := ty, timestamp := now }
                else r0) },
           r.id)
  | none =>
      if db.employees.any (fun e => e.emp_id == i) then
        .ok ({ db with
               records := db.records ++
                 [{ id := db.nextId, emp_id := i, emp_name := n,
                    attendance_type := ty, date := d, timestamp := now }],
               nextId := db.nextId + 1 },
             db.nextId)
      else
        .error "insert or update on table attendance_records violates foreign key constraint"

/-- The `BEGIN … COMMIT` block of the attendance write: employee upsert then
record upsert on one client.  `fail1` / `fail2` inject a storage-engine
failure (with its error message) in place of the first / second statement;
any error makes the handler issue `ROLLBACK`, so the caller observes the
original state. -/
def upsertAttendanceTx (db : DB) (i n ty d : String) (now : Nat)
    (fail1 fail2 : Option String) : Except String (DB × Nat) :=
  match fail1 with
  | some msg => .error msg
  | none =>
    let db1 := upsertEmployeeStmt db i n now
    match fail2 with
    | some msg => .error msg
    | none => upsertRecordStmt db1 i n ty d now

/-- Status code and the relevant body fields of a mutating route's reply. -/
structure ApiResponse where
  status : Nat
  errMsg : Option String
  recId : Option Nat
  deriving Repr, DecidableEq

/-- `POST /employees` (the `/api`-prefixed variant is byte-identical):
validate both fields, then run the employee upsert; `fail` injects a
storage failure into the single statement. -/
def postEmployees (db : DB) (emp_id name : Option String) (now : Nat)
    (fail : Option String) : ApiResponse × DB :=
  if falsy emp_id || falsy name then
    ({ status := 400, errMsg := some "Employee ID and name are required", recId := none }, db)
  else
    match fail with
    | some msg => ({ status := 500, errMsg := some msg, recId := none }, db)
    | none =>
        ({ status := 200, errMsg := none, recId := none },
         upsertEmployeeStmt db (emp_id.getD "") (name.getD "") now)

/-- `POST /attendance`: validate the four fields, then run the combined
transaction; on success reply 200 with the returned record id, on error
reply 500 with the error message (after the rollback). -/
def postAttendance (db : DB) (emp_id emp_name attendance_type date : Option String)
    (now : Nat) (fail1 fail2 : Option String) : ApiResponse × DB :=
  if falsy emp_id || falsy emp_name || falsy attendance_type || falsy date then
    ({ status := 400, errMsg := some "All fields are required", recId := none }, db)
  else
    match upsertAttendanceTx db (emp_id.getD "") (emp_name.getD "")
        (attendance_type.getD "") (date.getD "") now fail1 fail2 with
    | .ok (db', rid) => ({ status := 200, errMsg := none, recId := some rid }, db')
    | .error msg => ({ status := 500, errMsg := some msg, recId := none }, db)

/-- `DELETE /attendance/:id`: `DELETE FROM attendance_records WHERE id = $1`,
then 404 when `rowCount` is zero, 200 otherwise. -/
def deleteAttendance (db : DB) (i : Nat) : ApiResponse × DB :=
  let remaining := db.records.filter (fun r => !(r.id == i))
  let rowCount := db.records.length - remaining.length
  let db' := { db with records := remaining }
  if rowCount == 0 then
    ({ status := 404, errMsg := some "Record not found", recId := none }, db')
  else
    ({ status := 200, errMsg := none, recId := none }, db')

/-- Comparator realising `ORDER BY date DESC, emp_id`. -/
def recLe (a b : AttendanceRecord) : Bool :=
  decide (b.date < a.date) || (decide (a.date = b.date) && decide (a.emp_id ≤ b.emp_id))

/-- Comparator realising `ORDER BY date DESC`. -/
def dateDescLe (a b : AttendanceRecord) : Bool :=
  decide (b.date ≤ a.date)

/-- The dynamically built `WHERE` clause of `GET /attendance`: each query
parameter contributes its predicate only when it is truthy, and the
provided predicates are AND-combined. -/
def matchesFilters (sd ed ty : Option String) (r : AttendanceRecord) : Bool :=
  (if falsy sd then true else decide (sd.getD "" ≤ r.date)) &&
  (if falsy ed then true else decide (r.date ≤ ed.getD "")) &&
  (if falsy ty then true else r.attendance_type == ty.getD "")

/-- `GET /attendance?start_date&end_date&attendance_type`:
`SELECT * FROM attendance_records WHERE 1=1 [AND date >= $i] [AND date <= $j]
[AND attendance_type = $k] ORDER BY date DESC, emp_id`. -/
def listFiltered (db : DB) (sd ed ty : Option String) : List AttendanceRecord :=
  (db.records.filter (matchesFilters sd ed ty)).mergeSort recLe

/-- `GET /attendance/:emp_id`: all records of one employee,
`ORDER BY date DESC`. -/
def listByEmployee (db : DB) (i : String) : List AttendanceRecord :=
  (db.records.filter (fun r => r.emp_id == i)).mergeSort dateDescLe

/-- `GET /attendance-range/:emp_id/:start_date/:end_date`:
`WHERE emp_id = $1 AND date BETWEEN $2 AND $3 ORDER BY date DESC`
(`BETWEEN` is inclusive on both ends). -/
def listRange (db : DB) (i sd ed : String) : List AttendanceRecord :=
  (db.records.filter (fun r =>
    r.emp_id == i && decide (sd ≤ r.date) && decide (r.date ≤ ed))).mergeSort dateDescLe

/-- The `GET /stats` response body. -/
structure Stats where
  totalEmployees : Nat
  totalRecords : Nat
  wfoRecords : Nat
  wfhRecords : Nat
  attendanceByType : List (String × Nat)
  deriving Repr, DecidableEq

/-- `GET /stats`: four `COUNT(*)` queries plus
`SELECT attendance_type, COUNT(*) FROM attendance_records GROUP BY
attendance_type ORDER BY count DESC`. -/
def computeStats (db : DB) : Stats :=
  let types := (db.records.map (fun r => r.attendance_type)).dedup
  { totalEmployees := db.employees.length
    totalRecords := db.records.length
    wfoRecords := db.records.countP (fun r => r.attendance_type == "WFO")
    wfhRecords := db.records.countP (fun r => r.attendance_type == "WFH")
    attendanceByType :=
      (types.map (fun t =>
        (t, db.records.countP (fun r => r.attendance_type == t)))).mergeSort
        (fun a b => decide (b.2 ≤ a.2)) }

/-- One mutating API call, with its failure oracle. -/
inductive Op where
  | employeeUpsert (emp_id name : Option String) (now : Nat) (fail : Option String)
  | attendanceUpsert (emp_id emp_name attendance_type date : Option String)
      (now : Nat) (fail1 fail2 : Option String)
  | attendanceDelete (id : Nat)

/-- State transition of one mutating API call. -/
def applyOp (db : DB) : Op → DB
  | .employeeUpsert i n now f => (postEmployees db i n now f).2
  | .attendanceUpsert i n ty d now f1 f2 => (postAttendance db i n ty d now f1 f2).2
  | .attendanceDelete i => (deleteAttendance db i).2

/-- States reachable from the freshly created schema through the API. -/
def Reachable (db : DB) : Prop :=
  ∃ ops : List Op, db = ops.foldl applyOp emptyDB

/-- `emp_id` is the primary key of `employees`. -/
def uniqueEmpIds (db : DB) : Prop :=
  (db.employees.map (fun e => e.emp_id)).Nodup

/-- The `UNIQUE (emp_id, date)` constraint on `attendance_records`. -/
def uniqueKeys (db : DB) : Prop :=
  (db.records.map (fun r => (r.emp_id, r.date))).Nodup

/-- `id` is the primary key of `attendance_records`. -/
def uniqueRecIds (db : DB) : Prop :=
  (db.records.map (fun r => r.id)).Nodup

/-- Every issued record id is below the `SERIAL` sequence value. -/
def idsBounded (db : DB) : Prop :=
  ∀ r ∈ db.records, r.id < db.nextId

/-- The `FOREIGN KEY (emp_id) REFERENCES employees` constraint. -/
def refIntegrity (db : DB) : Prop :=
  ∀ r ∈ db.records, ∃ e ∈ db.employees, e.emp_id = r.emp_id

/-- All schema constraints together. -/
def Inv (db : DB) : Prop :=
  uniqueEmpIds db ∧ uniqueKeys db ∧ uniqueRecIds db ∧ idsBounded db ∧ refIntegrity db

/-- Sample row used to exercise the theorems on concrete data. -/
def sampleEmployee : Employee :=
  { emp_id := "E1", name := "Alice", created_at := 0, updated_at := 0 }

/-- Sample attendance row. -/
def sampleRecord1 : AttendanceRecord :=
  { id := 1, emp_id := "E1", emp_name := "Alice", attendance_type := "WFO",
    date := "2024-01-10", timestamp := 0 }

/-- Second sample attendance row (same employee, next day, WFH). -/
def sampleRecord2 : AttendanceRecord :=
  { id := 2, emp_id := "E1", emp_name := "Alice", attendance_type := "WFH",
    date := "2024-01-11", timestamp := 1 }

/-- Sample state with one employee and two attendance rows. -/
def sampleDB : DB :=
  { employees := [sampleEmployee], records := [sampleRecord1, sampleRecord2], nextId := 3 }

/-! ### Generic list lemmas about conditional row updates -/

section ListHelpers

variable {α : Type} {β : Type}

theorem filter_map_ite (p : α → Bool) (f : α → α) (hpf : ∀ a, p (f a) = p a) (l : List α) :
    (l.map (fun a => if p a then f a else a)).filter p = (l.filter p).map f := by
  induction l with
  | nil => rfl
  | cons a l ih =>
    by_cases h : p a
    · simp [List.filter_cons, h, hpf, ih]
    · simp [List.filter_cons, h, ih]

theorem filter_not_map_ite (p : α → Bool) (f : α → α) (hpf : ∀ a, p (f a) = p a) (l : List α) :
    (l.map (fun a => if p a then f a else a)).filter (fun a => !(p a)) =
      l.filter (fun a => !(p a)) := by
  induction l with
  | nil => rfl
  | cons a l ih =>
    by_cases h : p a
    · simp [List.filter_cons, h, hpf, ih]
    · simp [List.filter_cons, h, ih]

theorem map_map_ite (p : α → Bool) (f : α → α) (k : α → β) (hk : ∀ a, k (f a) = k a) (l : List α) :
    (l.map (fun a => if p a then f a else a)).map k = l.map k := by
  induction l with
  | nil => rfl
  | cons a l ih =>
    by_cases h : p a <;> simp [h, hk, ih]

theorem filter_singleton_of_find? {p : α → Bool} {k : α → β} {kv : β} {r : α}
    (hq : ∀ a, p a = true ↔ k a = kv) :
    ∀ l : List α, (l.map k).Nodup → l.find? p = some r → l.filter p = [r]
  | [], _, hfind => by simp at hfind
  | a :: l, hnd, hfind => by
    rw [List.map_cons, List.nodup_cons] at hnd
    by_cases h : p a
    · rw [List.find?_cons_of_pos _ h] at hfind
      injection hfind with hra
      subst hra
      rw [List.filter_cons_of_pos h]
      have hnil : l.filter p = [] := by
        rw [List.filter_eq_nil_iff]
        intro b hb hpb
        exact hnd.1 (((hq b).mp hpb).trans ((hq a).mp h).symm ▸ List.mem_map_of_mem k hb)
      rw [hnil]
    · rw [List.find?_cons_of_neg _ h] at hfind
      rw [List.filter_cons_of_neg h]
      exact filter_singleton_of_find? hq l hnd.2 hfind

theorem find?_of_filter_eq_singleton {p : α → Bool} {r : α} :
    ∀ l : List α, l.filter p = [r] → l.find? p = some r
  | [], hf => by simp at hf
  | a :: l, hf => by
    by_cases h : p a
    · rw [List.filter_cons_of_pos h] at hf
      injection hf with hra
      subst hra
      exact List.find?_cons_of_pos _ h
    · rw [List.filter_cons_of_neg h] at hf
      rw [List.find?_cons_of_neg _ h]
      exact find?_of_filter_eq_singleton l hf

end ListHelpers

/-! ### The employee upsert statement -/

theorem records_upsertEmployeeStmt (db : DB) (i n : String) (t : Nat) :
    (upsertEmployeeStmt db i n t).records = db.records := by
  unfold upsertEmployeeStmt
  split <;> rfl

theorem nextId_upsertEmployeeStmt (db : DB) (i n : String) (t : Nat) :
    (upsertEmployeeStmt db i n t).nextId = db.nextId := by
  unfold upsertEmployeeStmt
  split <;> rfl

theorem employees_upsertEmployeeStmt (db : DB) (i n : String) (t : Nat) :
    (upsertEmployeeStmt db i n t).employees =
      if db.employees.any (fun e => e.emp_id == i) then
        db.employees.map (fun e =>
          if e.emp_id == i then { e with name := n, updated_at := t } else e)
      else
        db.employees ++ [{ emp_id := i, name := n, created_at := t, updated_at := t }] := by
  unfold upsertEmployeeStmt
  split <;> rfl

theorem DBext {a b : DB} (he : a.employees = b.employees) (hr : a.records = b.records)
    (hn : a.nextId = b.nextId) : a = b := by
  cases a
  cases b
  simp_all

theorem empIds_upsertEmployeeStmt (db : DB) (i n : String) (t : Nat) :
    (upsertEmployeeStmt db i n t).employees.map (fun e => e.emp_id) =
      if db.employees.any (fun e => e.emp_id == i) then
        db.employees.map (fun e => e.emp_id)
      else
        db.employees.map (fun e => e.emp_id) ++ [i] := by
  rw [employees_upsertEmployeeStmt]
  split
  · exact map_map_ite (fun e => e.emp_id == i)
      (fun e => { e with name := n, updated_at := t })
      (fun e => e.emp_id) (fun e => rfl) db.employees
  · simp

theorem uniqueEmpIds_upsertEmployeeStmt {db : DB} (i n : String) (t : Nat)
    (h : uniqueEmpIds db) : uniqueEmpIds (upsertEmployeeStmt db i n t) := by
  unfold uniqueEmpIds at h ⊢
  rw [empIds_upsertEmployeeStmt]
  split
  · exact h
  · next hany =>
    rw [Bool.not_eq_true, List.any_eq_false] at hany
    rw [List.nodup_append]
    refine ⟨h, List.nodup_singleton i, ?_⟩
    intro x hx hx1
    rw [List.mem_singleton] at hx1
    subst hx1
    obtain ⟨e, he, hei⟩ := List.mem_map.mp hx
    exact hany e he (by simp [hei])

theorem hasId_upsertEmployeeStmt (db : DB) (i n : String) (t : Nat) :
    (upsertEmployeeStmt db i n t).employees.any (fun e => e.emp_id == i) = true := by
  rw [employees_upsertEmployeeStmt]
  split
  · next h =>
    rw [List.any_eq_true] at h ⊢
    obtain ⟨e, he, hei⟩ := h
    refine ⟨if e.emp_id == i then { e with name := n, updated_at := t } else e,
      List.mem_map_of_mem _ he, ?_⟩
    rw [hei]
    simpa using hei
  · simp

theorem keepsIds_upsertEmployeeStmt {db : DB} (i n : String) (t : Nat) (j : String)
    (h : ∃ e ∈ db.employees, e.emp_id = j) :
    ∃ e ∈ (upsertEmployeeStmt db i n t).employees, e.emp_id = j := by
  obtain ⟨e, he, hej⟩ := h
  rw [employees_upsertEmployeeStmt]
  split
  · refine ⟨if e.emp_id == i then { e with name := n, updated_at := t } else e,
      List.mem_map_of_mem _ he, ?_⟩
    split <;> simpa using hej
  · exact ⟨e, List.mem_append_left _ he, hej⟩

theorem memSelf_upsertEmployeeStmt (db : DB) (i n : String) (t : Nat) :
    ∃ e ∈ (upsertEmployeeStmt db i n t).employees, e.emp_id = i ∧ e.name = n := by
  rw [employees_upsertEmployeeStmt]
  split
  · next h =>
    rw [List.any_eq_true] at h
    obtain ⟨e, he, hei⟩ := h
    refine ⟨if e.emp_id == i then { e with name := n, updated_at := t } else e,
      List.mem_map_of_mem _ he, ?_⟩
    rw [hei]
    simpa using hei
  · exact ⟨_, List.mem_append_right _ (List.mem_singleton_self _), rfl, rfl⟩

theorem fix_upsertEmployeeStmt (db : DB) (i n : String) (t : Nat) :
    ∀ e ∈ (upsertEmployeeStmt db i n t).employees,
      (if e.emp_id == i then { e with name := n, updated_at := t } else e) = e := by
  rw [employees_upsertEmployeeStmt]
  split
  · intro e he
    obtain ⟨e0, he0, rfl⟩ := List.mem_map.mp he
    by_cases h0 : e0.emp_id == i <;> simp [h0]
  · next hany =>
    rw [Bool.not_eq_true, List.any_eq_false] at hany
    intro e he
    rcases List.mem_append.mp he with he | he
    · simp [Bool.eq_false_iff.mpr (hany e he)]
    · rw [List.mem_singleton] at he
      subst he
      simp

theorem upsertEmployeeStmt_idem (db : DB) (i n : String) (t : Nat) :
    upsertEmployeeStmt (upsertEmployeeStmt db i n t) i n t =
      upsertEmployeeStmt db i n t := by
  apply DBext
  · rw [employees_upsertEmployeeStmt (upsertEmployeeStmt db i n t),
      if_pos (hasId_upsertEmployeeStmt db i n t)]
    calc
      ((upsertEmployeeStmt db i n t).employees.map (fun e =>
          if e.emp_id == i then { e with name := n, updated_at := t } else e))
          = (upsertEmployeeStmt db i n t).employees.map id :=
        List.map_congr_left (fix_upsertEmployeeStmt db i n t)
      _ = (upsertEmployeeStmt db i n t).employees := List.map_id _
  · rw [records_upsertEmployeeStmt]
  · rw [nextId_upsertEmployeeStmt]

theorem filterName_upsertEmployeeStmt {db : DB} (i n : String) (t : Nat)
    (h : uniqueEmpIds db) :
    ((upsertEmployeeStmt db i n t).employees.filter
        (fun e => e.emp_id == i)).map (fun e => e.name) = [n] := by
  rw [employees_upsertEmployeeStmt]
  split
  · next hany =>
    rw [filter_map_ite (fun e : Employee => e.emp_id == i)
      (fun e : Employee => { e with name := n, updated_at := t }) (fun e => rfl)]
    rw [List.any_eq_true] at hany
    have hsome : (db.employees.find? (fun e => e.emp_id == i)).isSome :=
      List.find?_isSome.mpr hany
    obtain ⟨r, hr⟩ := Option.isSome_iff_exists.mp hsome
    have hq : ∀ a : Employee, (a.emp_id == i) = true ↔ (fun e : Employee => e.emp_id) a = i :=
      fun a => by simp
    unfold uniqueEmpIds at h
    rw [filter_singleton_of_find? hq db.employees h hr]
    simp
  · next hany =>
    rw [Bool.not_eq_true, List.any_eq_false] at hany
    rw [List.filter_append, List.filter_eq_nil_iff.mpr hany]
    simp

/-! ### The attendance-record upsert statement -/

theorem keyMatch_iff (i d : String) (r : AttendanceRecord) :
    keyMatch i d r = true ↔ (fun r0 : AttendanceRecord => (r0.emp_id, r0.date)) r = (i, d) := by
  simp [keyMatch, Prod.ext_iff]

theorem upsertRecordStmt_updateEq {db : DB} {i d : String} {r0 : AttendanceRecord}
    (n ty : String) (t : Nat)
    (hf : db.records.find? (keyMatch i d) = some r0) :
    upsertRecordStmt db i n ty d t = .ok
      ({ db with records := db.records.map (fun r =>
          if keyMatch i d r then
            { r with emp_name := n, attendance_type := ty, timestamp := t }
          else r) }, r0.id) := by
  unfold upsertRecordStmt
  rw [hf]

theorem upsertRecordStmt_insertEq {db : DB} {i : String} (n ty : String) {d : String}
    (t : Nat) (hf : db.records.find? (keyMatch i d) = none)
    (hany : db.employees.any (fun e => e.emp_id == i) = true) :
    upsertRecordStmt db i n ty d t = .ok
      ({ db with
         records := db.records ++
           [{ id := db.nextId, emp_id := i, emp_name := n, attendance_type := ty,
              date := d, timestamp := t }],
         nextId := db.nextId + 1 }, db.nextId) := by
  unfold upsertRecordStmt
  rw [hf]
  show (if db.employees.any (fun e => e.emp_id == i) then _ else _) = _
  rw [if_pos hany]

theorem upsertRecordStmt_fkErrEq {db : DB} {i : String} (n ty : String) {d : String}
    (t : Nat) (hf : db.records.find? (keyMatch i d) = none)
    (hany : db.employees.any (fun e => e.emp_id == i) = false) :
    upsertRecordStmt db i n ty d t =
      .error "insert or update on table attendance_records violates foreign key constraint" := by
  unfold upsertRecordStmt
  rw [hf]
  show (if db.employees.any (fun e => e.emp_id == i) then _ else _) = _
  rw [hany]
  rfl

theorem upsertRecordStmt_ok_spec {db db' : DB} {i n ty d : String} {t : Nat} {rid : Nat}
    (hkeys : uniqueKeys db)
    (h : upsertRecordStmt db i n ty d t = .ok (db', rid)) :
    db'.employees = db.employees ∧
    db'.records.filter (keyMatch i d) =
      [{ id := rid, emp_id := i, emp_name := n, attendance_type := ty,
         date := d, timestamp := t }] ∧
    db'.records.filter (fun r => !(keyMatch i d r)) =
      db.records.filter (fun r => !(keyMatch i d r)) ∧
    (∀ r0, db.records.find? (keyMatch i d) = some r0 →
      rid = r0.id ∧ db'.records.length = db.records.length ∧ db'.nextId = db.nextId) ∧
    (db.records.find? (keyMatch i d) = none →
      rid = db.nextId ∧ db'.records.length = db.records.length + 1 ∧
        db'.nextId = db.nextId + 1) := by
  cases hf : db.records.find? (keyMatch i d) with
  | some r0 =>
    rw [upsertRecordStmt_updateEq n ty t hf] at h
    injection h with h
    injection h with hdb hrid
    subst hdb
    subst hrid
    have hkey : keyMatch i d r0 = true := List.find?_some hf
    have hemp : r0.emp_id = i := by
      have := (keyMatch_iff i d r0).mp hkey
      exact (Prod.ext_iff.mp this).1
    have hdate : r0.date = d := by
      have := (keyMatch_iff i d r0).mp hkey
      exact (Prod.ext_iff.mp this).2
    dsimp only
    refine ⟨rfl, ?_, ?_, ?_, ?_⟩
    · rw [filter_map_ite (keyMatch i d)
        (fun r : AttendanceRecord =>
          { r with emp_name := n, attendance_type := ty, timestamp := t })
        (fun r => rfl)]
      rw [filter_singleton_of_find? (keyMatch_iff i d) db.records hkeys hf]
      subst hemp
      subst hdate
      rfl
    · exact filter_not_map_ite (keyMatch i d)
        (fun r : AttendanceRecord =>
          { r with emp_name := n, attendance_type := ty, timestamp := t })
        (fun r => rfl) db.records
    · intro r1 h1
      injection h1 with h1
      subst h1
      exact ⟨rfl, by simp, rfl⟩
    · intro h1
      cases h1
  | none =>
    cases hany : db.employees.any (fun e => e.emp_id == i) with
    | true =>
      rw [upsertRecordStmt_insertEq n ty t hf hany] at h
      rw [List.find?_eq_none] at hf
      injection h with h
      injection h with hdb hrid
      subst hdb
      subst hrid
      dsimp only
      refine ⟨rfl, ?_, ?_, ?_, ?_⟩
      · rw [List.filter_append, List.filter_eq_nil_iff.mpr hf]
        simp [keyMatch]
      · rw [List.filter_append]
        have : (List.filter (fun r => !(keyMatch i d r))
            [{ id := db.nextId, emp_id := i, emp_name := n, attendance_type := ty,
               date := d, timestamp := t }] : List AttendanceRecord) = [] := by
          simp [keyMatch]
        rw [this, List.append_nil]
      · intro r1 h1
        cases h1
      · intro
        exact ⟨rfl, by simp, rfl⟩
    | false =>
      rw [upsertRecordStmt_fkErrEq n ty t hf hany] at h
      cases h

theorem inv_upsertEmployeeStmt {db : DB} (i n : String) (t : Nat) (hInv : Inv db) :
    Inv (upsertEmployeeStmt db i n t) := by
  obtain ⟨h1, h2, h3, h4, h5⟩ := hInv
  refine ⟨uniqueEmpIds_upsertEmployeeStmt i n t h1, ?_, ?_, ?_, ?_⟩
  · unfold uniqueKeys
    rw [records_upsertEmployeeStmt]
    exact h2
  · unfold uniqueRecIds
    rw [records_upsertEmployeeStmt]
    exact h3
  · intro r hr
    rw [records_upsertEmployeeStmt] at hr
    rw [nextId_upsertEmployeeStmt]
    exact h4 r hr
  · intro r hr
    rw [records_upsertEmployeeStmt] at hr
    exact keepsIds_upsertEmployeeStmt i n t r.emp_id (h5 r hr)

theorem inv_upsertRecordStmt {db db' : DB} {i n ty d : String} {t : Nat} {rid : Nat}
    (hInv : Inv db) (h : upsertRecordStmt db i n ty d t = .ok (db', rid)) :
    Inv db' := by
  obtain ⟨h1, h2, h3, h4, h5⟩ := hInv
  cases hf : db.records.find? (keyMatch i d) with
  | some r0 =>
    rw [upsertRecordStmt_updateEq n ty t hf] at h
    injection h with h
    injection h with hdb hrid
    subst hdb
    refine ⟨h1, ?_, ?_, ?_, ?_⟩
    · unfold uniqueKeys
      rw [map_map_ite (keyMatch i d)
        (fun r : AttendanceRecord =>
          { r with emp_name := n, attendance_type := ty, timestamp := t })
        (fun r : AttendanceRecord => (r.emp_id, r.date)) (fun r => rfl)]
      exact h2
    · unfold uniqueRecIds
      rw [map_map_ite (keyMatch i d)
        (fun r : AttendanceRecord =>
          { r with emp_name := n, attendance_type := ty, timestamp := t })
        (fun r : AttendanceRecord => r.id) (fun r => rfl)]
      exact h3
    · intro r hr
      obtain ⟨r1, hr1, rfl⟩ := List.mem_map.mp hr
      by_cases hk : keyMatch i d r1 = true <;> simp [hk] <;> exact h4 r1 hr1
    · intro r hr
      obtain ⟨r1, hr1, rfl⟩ := List.mem_map.mp hr
      by_cases hk : keyMatch i d r1 = true <;> simp [hk] <;> exact h5 r1 hr1
  | none =>
    cases hany : db.employees.any (fun e => e.emp_id == i) with
    | true =>
      rw [upsertRecordStmt_insertEq n ty t hf hany] at h
      rw [List.find?_eq_none] at hf
      injection h with h
      injection h with hdb hrid
      subst hdb
      refine ⟨h1, ?_, ?_, ?_, ?_⟩
      · unfold uniqueKeys
        rw [List.map_append, List.nodup_append]
        refine ⟨h2, by simp, ?_⟩
        intro x hx hx1
        simp only [List.map_cons, List.map_nil, List.mem_singleton] at hx1
        subst hx1
        obtain ⟨r1, hr1, hk1⟩ := List.mem_map.mp hx
        exact hf r1 hr1 ((keyMatch_iff i d r1).mpr hk1)
      · unfold uniqueRecIds
        rw [List.map_append, List.nodup_append]
        refine ⟨h3, by simp, ?_⟩
        intro x hx hx1
        simp only [List.map_cons, List.map_nil, List.mem_singleton] at hx1
        subst hx1
        obtain ⟨r1, hr1, hk1⟩ := List.mem_map.mp hx
        exact absurd hk1 (Nat.ne_of_lt (h4 r1 hr1))
      · intro r hr
        rcases List.mem_append.mp hr with hr | hr
        · exact Nat.lt_succ_of_lt (h4 r hr)
        · rw [List.mem_singleton] at hr
          subst hr
          exact Nat.lt_succ_self _
      · intro r hr
        rcases List.mem_append.mp hr with hr | hr
        · exact h5 r hr
        · rw [List.mem_singleton] at hr
          subst hr
          rw [List.any_eq_true] at hany
          obtain ⟨e, he, hei⟩ := hany
          exact ⟨e, he, by simpa using hei⟩
    | false =>
      rw [upsertRecordStmt_fkErrEq n ty t hf hany] at h
      cases h

/-! ### The combined write transaction -/

theorem upsertAttendanceTx_fail1 (db : DB) (i n ty d : String) (t : Nat)
    (msg : String) (fail2 : Option String) :
    upsertAttendanceTx db i n ty d t (some msg) fail2 = .error msg := rfl

theorem upsertAttendanceTx_fail2 (db : DB) (i n ty d : String) (t : Nat)
    (msg : String) :
    upsertAttendanceTx db i n ty d t none (some msg) = .error msg := rfl

theorem upsertAttendanceTx_run (db : DB) (i n ty d : String) (t : Nat) :
    upsertAttendanceTx db i n ty d t none none =
      upsertRecordStmt (upsertEmployeeStmt db i n t) i n ty d t := rfl

/-- With no injected failure the transaction always succeeds: the employee
upsert guarantees the foreign-key check of the record upsert. -/
theorem upsertAttendanceTx_ok_ex (db : DB) (i n ty d : String) (t : Nat) :
    ∃ db' rid, upsertAttendanceTx db i n ty d t none none = .ok (db', rid) := by
  rw [upsertAttendanceTx_run]
  cases hf : (upsertEmployeeStmt db i n t).records.find? (keyMatch i d) with
  | some r0 => exact ⟨_, _, upsertRecordStmt_updateEq n ty t hf⟩
  | none => exact ⟨_, _, upsertRecordStmt_insertEq n ty t hf (hasId_upsertEmployeeStmt db i n t)⟩

theorem inv_upsertAttendanceTx {db db' : DB} {i n ty d : String} {t : Nat}
    {fail1 fail2 : Option String} {rid : Nat} (hInv : Inv db)
    (h : upsertAttendanceTx db i n ty d t fail1 fail2 = .ok (db', rid)) : Inv db' := by
  cases fail1 with
  | some msg =>
    rw [upsertAttendanceTx_fail1] at h
    cases h
  | none =>
    cases fail2 with
    | some msg =>
      rw [upsertAttendanceTx_fail2] at h
      cases h
    | none =>
      rw [upsertAttendanceTx_run] at h
      exact inv_upsertRecordStmt (inv_upsertEmployeeStmt i n t hInv) h

/-! ### Reachable states satisfy the schema constraints -/

theorem inv_filterRecords {db : DB} (hInv : Inv db) (q : AttendanceRecord → Bool) :
    Inv { db with records := db.records.filter q } := by
  obtain ⟨h1, h2, h3, h4, h5⟩ := hInv
  refine ⟨h1, ?_, ?_, ?_, ?_⟩
  · exact h2.sublist ((db.records.filter_sublist).map _)
  · exact h3.sublist ((db.records.filter_sublist).map _)
  · intro r hr
    exact h4 r (List.mem_of_mem_filter hr)
  · intro r hr
    exact h5 r (List.mem_of_mem_filter hr)

theorem inv_emptyDB : Inv emptyDB := by
  refine ⟨?_, ?_, ?_, ?_, ?_⟩ <;>
    simp [uniqueEmpIds, uniqueKeys, uniqueRecIds, idsBounded, refIntegrity, emptyDB]

theorem inv_applyOp {db : DB} (hInv : Inv db) (op : Op) : Inv (applyOp db op) := by
  cases op with
  | employeeUpsert i n now f =>
    show Inv (postEmployees db i n now f).2
    unfold postEmployees
    split
    · exact hInv
    · cases f with
      | some msg => exact hInv
      | none => exact inv_upsertEmployeeStmt _ _ _ hInv
  | attendanceUpsert i n ty d now f1 f2 =>
    show Inv (postAttendance db i n ty d now f1 f2).2
    unfold postAttendance
    split
    · exact hInv
    · cases htx : upsertAttendanceTx db (i.getD "") (n.getD "") (ty.getD "")
        (d.getD "") now f1 f2 with
      | ok p =>
        obtain ⟨db', rid⟩ := p
        exact inv_upsertAttendanceTx hInv htx
      | error msg => exact hInv
  | attendanceDelete i =>
    show Inv (deleteAttendance db i).2
    unfold deleteAttendance
    dsimp only
    split
    · exact inv_filterRecords hInv _
    · exact inv_filterRecords hInv _

theorem inv_foldl : ∀ (ops : List Op) (db : DB), Inv db → Inv (ops.foldl applyOp db)
  | [], _, h => h
  | op :: ops, db, h => inv_foldl ops (applyOp db op) (inv_applyOp h op)

theorem reachable_inv {db : DB} (h : Reachable db) : Inv db := by
  obtain ⟨ops, rfl⟩ := h
  exact inv_foldl ops emptyDB inv_emptyDB

/-! ### Comparator facts for the ORDER BY clauses -/

theorem recLe_trans (a b c : AttendanceRecord) (hab : recLe a b) (hbc : recLe b c) :
    recLe a c := by
  simp only [recLe, Bool.or_eq_true, Bool.and_eq_true, decide_eq_true_eq] at hab hbc ⊢
  rcases hab with h1 | ⟨h1, h2⟩
  · rcases hbc with h3 | ⟨h3, h4⟩
    · exact Or.inl (lt_trans h3 h1)
    · exact Or.inl (by rw [← h3]; exact h1)
  · rcases hbc with h3 | ⟨h3, h4⟩
    · exact Or.inl (by rw [h1]; exact h3)
    · exact Or.inr ⟨h1.trans h3, h2.trans h4⟩

theorem recLe_total (a b : AttendanceRecord) : recLe a b || recLe b a := by
  simp only [recLe, Bool.or_eq_true, Bool.and_eq_true, decide_eq_true_eq]
  rcases lt_trichotomy a.date b.date with h | h | h
  · exact Or.inr (Or.inl h)
  · rcases le_total a.emp_id b.emp_id with h2 | h2
    · exact Or.inl (Or.inr ⟨h, h2⟩)
    · exact Or.inr (Or.inr ⟨h.symm, h2⟩)
  · exact Or.inl (Or.inl h)

theorem dateDescLe_trans (a b c : AttendanceRecord) (hab : dateDescLe a b)
    (hbc : dateDescLe b c) : dateDescLe a c := by
  simp only [dateDescLe, decide_eq_true_eq] at hab hbc ⊢
  exact le_trans hbc hab

theorem dateDescLe_total (a b : AttendanceRecord) : dateDescLe a b || dateDescLe b a := by
  simp only [dateDescLe, Bool.or_eq_true, decide_eq_true_eq]
  exact le_total b.date a.date

theorem countDescLe_trans (a b c : String × Nat) (hab : decide (b.2 ≤ a.2) = true)
    (hbc : decide (c.2 ≤ b.2) = true) : decide (c.2 ≤ a.2) = true := by
  simp only [decide_eq_true_eq] at hab hbc ⊢
  exact le_trans hbc hab

theorem countDescLe_total (a b : String × Nat) :
    decide (b.2 ≤ a.2) || decide (a.2 ≤ b.2) := by
  simp only [Bool.or_eq_true, decide_eq_true_eq]
  exact le_total b.2 a.2

/-! ### Success spec of the whole transaction -/

theorem upsertAttendanceTx_ok_spec {db db' : DB} {i n ty d : String} {t : Nat} {rid : Nat}
    (hkeys : uniqueKeys db)
    (h : upsertAttendanceTx db i n ty d t none none = .ok (db', rid)) :
    db'.employees = (upsertEmployeeStmt db i n t).employees ∧
    db'.records.filter (keyMatch i d) =
      [{ id := rid, emp_id := i, emp_name := n, attendance_type := ty,
         date := d, timestamp := t }] ∧
    db'.records.filter (fun r => !(keyMatch i d r)) =
      db.records.filter (fun r => !(keyMatch i d r)) ∧
    (∀ r0, db.records.find? (keyMatch i d) = some r0 →
      rid = r0.id ∧ db'.records.length = db.records.length) ∧
    (db.records.find? (keyMatch i d) = none →
      db'.records.length = db.records.length + 1) := by
  rw [upsertAttendanceTx_run] at h
  have hkeys1 : uniqueKeys (upsertEmployeeStmt db i n t) := by
    unfold uniqueKeys
    rw [records_upsertEmployeeStmt]
    exact hkeys
  obtain ⟨he, hkey, hnotkey, hsome, hnone⟩ := upsertRecordStmt_ok_spec hkeys1 h
  rw [records_upsertEmployeeStmt] at hnotkey hsome hnone
  refine ⟨he, hkey, hnotkey, ?_, ?_⟩
  · intro r0 h0
    obtain ⟨ha, hb, _⟩ := hsome r0 h0
    exact ⟨ha, hb⟩
  · intro h0
    exact (hnone h0).2.1

theorem countP_not_add {α : Type} (p : α → Bool) (l : List α) :
    (l.filter (fun a => !(p a))).length + l.countP p = l.length := by
  induction l with
  | nil => rfl
  | cons a l ih =>
    by_cases h : p a <;> simp [List.filter_cons, List.countP_cons, h] <;> omega

/-! ### Claims -/

/-- C8: a request to the employee upsert with a missing or empty `emp_id` or
`name`, and a request to the attendance upsert with any of the four fields
missing or empty, is answered 400 with a validation message and leaves the
stored state untouched (no statement is executed). -/
theorem spec_C8_validation_rejects (db : DB)
    (emp_id name emp_name attendance_type date : Option String) (now : Nat)
    (fail fail1 fail2 : Option String) :
    ((falsy emp_id || falsy name) = true →
      postEmployees db emp_id name now fail =
        ({ status := 400, errMsg := some "Employee ID and name are required",
           recId := none }, db)) ∧
    ((falsy emp_id || falsy emp_name || falsy attendance_type || falsy date) = true →
      postAttendance db emp_id emp_name attendance_type date now fail1 fail2 =
        ({ status := 400, errMsg := some "All fields are required", recId := none }, db)) := by
  constructor
  · intro h
    unfold postEmployees
    rw [if_pos h]
  · intro h
    unfold postAttendance
    rw [if_pos h]

theorem spec_C8_validation_rejects_witness :
    postEmployees emptyDB none (some "Alice") 7 none =
      ({ status := 400, errMsg := some "Employee ID and name are required",
         recId := none }, emptyDB) ∧
    postAttendance emptyDB (some "E1") (some "") (some "WFO") (some "2024-01-10") 7
        none none =
      ({ status := 400, errMsg := some "All fields are required", recId := none },
       emptyDB) :=
  ⟨(spec_C8_validation_rejects emptyDB none (some "Alice") (some "") (some "WFO")
      (some "2024-01-10") 7 none none none).1 (by decide),
   (spec_C8_validation_rejects emptyDB (some "E1") (some "Alice") (some "")
      (some "WFO") (some "2024-01-10") 7 none none none).2 (by decide)⟩

/-- C4: the employee upsert is idempotent — running it twice with the same
inputs produces the same `employees` table as running it once — and two
upserts of the same id with different names leave exactly one row for that
id, carrying the later name. -/
theorem spec_C4_employee_upsert_idempotent (db : DB) (i n n1 n2 : String)
    (t t1 t2 : Nat) :
    upsertEmployeeStmt (upsertEmployeeStmt db i n t) i n t =
      upsertEmployeeStmt db i n t ∧
    (uniqueEmpIds db →
      ((upsertEmployeeStmt (upsertEmployeeStmt db i n1 t1) i n2 t2).employees.filter
          (fun e => e.emp_id == i)).map (fun e => e.name) = [n2]) := by
  refine ⟨upsertEmployeeStmt_idem db i n t, ?_⟩
  intro h
  exact filterName_upsertEmployeeStmt i n2 t2 (uniqueEmpIds_upsertEmployeeStmt i n1 t1 h)

theorem spec_C4_employee_upsert_idempotent_witness :
    upsertEmployeeStmt (upsertEmployeeStmt emptyDB "E1" "Alice" 1) "E1" "Alice" 1 =
      upsertEmployeeStmt emptyDB "E1" "Alice" 1 ∧
    ((upsertEmployeeStmt (upsertEmployeeStmt emptyDB "E1" "Alice" 1) "E1" "Bob" 2).employees.filter
        (fun e => e.emp_id == "E1")).map (fun e => e.name) = ["Bob"] :=
  ⟨(spec_C4_employee_upsert_idempotent emptyDB "E1" "Alice" "Alice" "Bob" 1 1 2).1,
   (spec_C4_employee_upsert_idempotent emptyDB "E1" "Alice" "Alice" "Bob" 1 1 2).2
     (by exact List.nodup_nil)⟩

/-- C7: deleting an attendance id that exists succeeds with 200 and removes
exactly that record, leaving employees (and every other record) unchanged;
deleting a nonexistent id is answered 404 and changes nothing. -/
theorem spec_C7_delete (db : DB) (i : Nat) :
    ((∀ r ∈ db.records, r.id ≠ i) →
      deleteAttendance db i =
        ({ status := 404, errMsg := some "Record not found", recId := none }, db)) ∧
    (uniqueRecIds db → ∀ r0 ∈ db.records, r0.id = i →
      (deleteAttendance db i).1 = { status := 200, errMsg := none, recId := none } ∧
      (deleteAttendance db i).2.employees = db.employees ∧
      (deleteAttendance db i).2.nextId = db.nextId ∧
      (∀ r, r ∈ (deleteAttendance db i).2.records ↔ r ∈ db.records ∧ r.id ≠ i) ∧
      (deleteAttendance db i).2.records.length + 1 = db.records.length) := by
  constructor
  · intro hno
    have hself : db.records.filter (fun r => !(r.id == i)) = db.records :=
      List.filter_eq_self.mpr (fun a ha => by simpa using hno a ha)
    unfold deleteAttendance
    dsimp only
    rw [hself]
    simp
  · intro hu r0 hr0 hid
    have hmem : ¬ r0 ∈ db.records.filter (fun r => !(r.id == i)) := by
      rw [List.mem_filter]
      rintro ⟨-, hcon⟩
      simp [hid] at hcon
    have hlt : (db.records.filter (fun r => !(r.id == i))).length < db.records.length := by
      rcases Nat.lt_or_ge (db.records.filter (fun r => !(r.id == i))).length
          db.records.length with h | h
      · exact h
      · exfalso
        have heq : db.records.filter (fun r => !(r.id == i)) = db.records :=
          (db.records.filter_sublist).eq_of_length
            (Nat.le_antisymm (db.records.length_filter_le _) h)
        rw [heq] at hmem
        exact hmem hr0
    have hcnt : db.records.countP (fun r => r.id == i) = 1 := by
      have hm : db.records.countP (fun r => r.id == i) =
          (db.records.map (fun r => r.id)).count i := by
        rw [List.count_eq_countP, List.countP_map]
        rfl
      have hle : (db.records.map (fun r => r.id)).count i ≤ 1 :=
        List.nodup_iff_count_le_one.mp hu i
      have hpos : 0 < (db.records.map (fun r => r.id)).count i :=
        List.count_pos_iff.mpr (List.mem_map.mpr ⟨r0, hr0, hid⟩)
      omega
    have hlen := countP_not_add (fun r => r.id == i) db.records
    have hdel : deleteAttendance db i =
        ({ status := 200, errMsg := none, recId := none },
         { db with records := db.records.filter (fun r => !(r.id == i)) }) := by
      unfold deleteAttendance
      dsimp only
      rw [if_neg (by simp only [beq_iff_eq]; omega)]
    rw [hdel]
    refine ⟨rfl, rfl, rfl, ?_, ?_⟩
    · intro r
      simp [List.mem_filter]
    · dsimp only
      omega

theorem spec_C7_delete_witness :
    deleteAttendance
        { employees := [{ emp_id := "E1", name := "Alice", created_at := 0, updated_at := 0 }],
          records := [{ id := 1, emp_id := "E1", emp_name := "Alice",
                        attendance_type := "WFO", date := "2024-01-10", timestamp := 0 }],
          nextId := 2 } 99 =
      ({ status := 404, errMsg := some "Record not found", recId := none },
       { employees := [{ emp_id := "E1", name := "Alice", created_at := 0, updated_at := 0 }],
         records := [{ id := 1, emp_id := "E1", emp_name := "Alice",
                       attendance_type := "WFO", date := "2024-01-10", timestamp := 0 }],
         nextId := 2 }) ∧
    (deleteAttendance
        { employees := [{ emp_id := "E1", name := "Alice", created_at := 0, updated_at := 0 }],
          records := [{ id := 1, emp_id := "E1", emp_name := "Alice",
                        attendance_type := "WFO", date := "2024-01-10", timestamp := 0 }],
          nextId := 2 } 1).1 = { status := 200, errMsg := none, recId := none } ∧
    (deleteAttendance
        { employees := [{ emp_id := "E1", name := "Alice", created_at := 0, updated_at := 0 }],
          records := [{ id := 1, emp_id := "E1", emp_name := "Alice",
                        attendance_type := "WFO", date := "2024-01-10", timestamp := 0 }],
          nextId := 2 } 1).2.records.length + 1 = 1 := by
  have h1 := (spec_C7_delete
    { employees := [{ emp_id := "E1", name := "Alice", created_at := 0, updated_at := 0 }],
      records := [{ id := 1, emp_id := "E1", emp_name := "Alice",
                    attendance_type := "WFO", date := "2024-01-10", timestamp := 0 }],
      nextId := 2 } 99).1 (by decide)
  have h2 := (spec_C7_delete
    { employees := [{ emp_id := "E1", name := "Alice", created_at := 0, updated_at := 0 }],
      records := [{ id := 1, emp_id := "E1", emp_name := "Alice",
                    attendance_type := "WFO", date := "2024-01-10", timestamp := 0 }],
      nextId := 2 } 1).2 (by unfold uniqueRecIds; decide)
    { id := 1, emp_id := "E1", emp_name := "Alice",
      attendance_type := "WFO", date := "2024-01-10", timestamp := 0 }
    (by decide) rfl
  exact ⟨h1, h2.1, h2.2.2.2.2⟩

/-- C9: the per-employee date-range listing returns exactly that employee's
records with date inclusively between the two bounds, ordered by date
descending. -/
theorem spec_C9_listRange (db : DB) (i sd ed : String) :
    (∀ r, r ∈ listRange db i sd ed ↔
      r ∈ db.records ∧ r.emp_id = i ∧ sd ≤ r.date ∧ r.date ≤ ed) ∧
    (listRange db i sd ed).Pairwise (fun a b => b.date ≤ a.date) := by
  constructor
  · intro r
    unfold listRange
    rw [List.mem_mergeSort, List.mem_filter]
    simp [and_assoc]
  · have hs := List.sorted_mergeSort dateDescLe_trans dateDescLe_total
      (db.records.filter (fun r =>
        r.emp_id == i && decide (sd ≤ r.date) && decide (r.date ≤ ed)))
    exact hs.imp (fun h => by simpa [dateDescLe] using h)

/-- Semantics of the dynamically added `date >= $k` predicate. -/
theorem startFilter_iff (o : Option String) (ho : o ≠ some "") (x : String) :
    ((if falsy o then true else decide (o.getD "" ≤ x)) = true ↔
      ∀ s, o = some s → s ≤ x) := by
  cases o with
  | none => simp [falsy]
  | some s =>
    have hs : s ≠ "" := fun h => ho (by rw [h])
    simp [falsy, hs]

/-- Semantics of the dynamically added `date <= $k` predicate. -/
theorem endFilter_iff (o : Option String) (ho : o ≠ some "") (x : String) :
    ((if falsy o then true else decide (x ≤ o.getD "")) = true ↔
      ∀ s, o = some s → x ≤ s) := by
  cases o with
  | none => simp [falsy]
  | some s =>
    have hs : s ≠ "" := fun h => ho (by rw [h])
    simp [falsy, hs]

/-- Semantics of the dynamically added `attendance_type = $k` predicate. -/
theorem typeFilter_iff (o : Option String) (ho : o ≠ some "") (x : String) :
    ((if falsy o then true else x == o.getD "") = true ↔
      ∀ s, o = some s → x = s) := by
  cases o with
  | none => simp [falsy]
  | some s =>
    have hs : s ≠ "" := fun h => ho (by rw [h])
    simp [falsy, hs]

theorem matchesFilters_iff {sd ed ty : Option String} (hsd : sd ≠ some "")
    (hed : ed ≠ some "") (hty : ty ≠ some "") (r : AttendanceRecord) :
    (matchesFilters sd ed ty r = true ↔
      ((∀ s, sd = some s → s ≤ r.date) ∧ (∀ e, ed = some e → r.date ≤ e) ∧
       (∀ t0, ty = some t0 → r.attendance_type = t0))) := by
  unfold matchesFilters
  rw [Bool.and_eq_true, Bool.and_eq_true]
  rw [startFilter_iff sd hsd, endFilter_iff ed hed, typeFilter_iff ty hty]
  tauto

/-- C5: with any subset of the three filters provided (a provided filter is a
non-empty string), the listing returns exactly the records satisfying all
provided predicates conjunctively (inclusive date bounds, equality on the
type), no filters returns all records, and the result is ordered by date
descending then employee id ascending. -/
theorem spec_C5_listFiltered (db : DB) (sd ed ty : Option String)
    (hsd : sd ≠ some "") (hed : ed ≠ some "") (hty : ty ≠ some "") :
    (∀ r, r ∈ listFiltered db sd ed ty ↔
      (r ∈ db.records ∧ (∀ s, sd = some s → s ≤ r.date) ∧
       (∀ e, ed = some e → r.date ≤ e) ∧
       (∀ t0, ty = some t0 → r.attendance_type = t0))) ∧
    (sd = none → ed = none → ty = none → (listFiltered db sd ed ty).Perm db.records) ∧
    (listFiltered db sd ed ty).Pairwise (fun a b =>
      b.date < a.date ∨ (a.date = b.date ∧ a.emp_id ≤ b.emp_id)) := by
  refine ⟨?_, ?_, ?_⟩
  · intro r
    unfold listFiltered
    rw [List.mem_mergeSort, List.mem_filter, matchesFilters_iff hsd hed hty]
  · intro h1 h2 h3
    subst h1
    subst h2
    subst h3
    unfold listFiltered
    have hall : db.records.filter (matchesFilters none none none) = db.records :=
      List.filter_eq_self.mpr (fun a _ => rfl)
    rw [hall]
    exact List.mergeSort_perm db.records recLe
  · have hs := List.sorted_mergeSort recLe_trans recLe_total
      (db.records.filter (matchesFilters sd ed ty))
    refine hs.imp (fun h => ?_)
    simpa [recLe, Bool.or_eq_true, Bool.and_eq_true, decide_eq_true_eq] using h

theorem spec_C5_listFiltered_witness :
    ({ id := 1, emp_id := "E1", emp_name := "Alice", attendance_type := "WFO",
       date := "2024-01-10", timestamp := 0 } : AttendanceRecord) ∈
      listFiltered
        { employees := [{ emp_id := "E1", name := "Alice", created_at := 0, updated_at := 0 }],
          records := [{ id := 1, emp_id := "E1", emp_name := "Alice",
                        attendance_type := "WFO", date := "2024-01-10", timestamp := 0 },
                      { id := 2, emp_id := "E1", emp_name := "Alice",
                        attendance_type := "WFH", date := "2024-01-11", timestamp := 1 }],
          nextId := 3 } none none (some "WFO") := by
  have h := (spec_C5_listFiltered
    { employees := [{ emp_id := "E1", name := "Alice", created_at := 0, updated_at := 0 }],
      records := [{ id := 1, emp_id := "E1", emp_name := "Alice",
                    attendance_type := "WFO", date := "2024-01-10", timestamp := 0 },
                  { id := 2, emp_id := "E1", emp_name := "Alice",
                    attendance_type := "WFH", date := "2024-01-11", timestamp := 1 }],
      nextId := 3 } none none (some "WFO")
    (by decide) (by decide) (by decide)).1
    { id := 1, emp_id := "E1", emp_name := "Alice", attendance_type := "WFO",
      date := "2024-01-10", timestamp := 0 }
  refine h.mpr ⟨by decide, ?_, ?_, ?_⟩
  · intro s hs
    cases hs
  · intro e he
    cases he
  · intro t0 ht0
    injection ht0 with ht0

theorem employees_upsertRecordStmt_ok {db db' : DB} {i n ty d : String} {t : Nat}
    {rid : Nat} (h : upsertRecordStmt db i n ty d t = .ok (db', rid)) :
    db'.employees = db.employees := by
  cases hf : db.records.find? (keyMatch i d) with
  | some r0 =>
    rw [upsertRecordStmt_updateEq n ty t hf] at h
    injection h with h
    injection h with hdb hrid
    subst hdb
    rfl
  | none =>
    cases hany : db.employees.any (fun e => e.emp_id == i) with
    | true =>
      rw [upsertRecordStmt_insertEq n ty t hf hany] at h
      injection h with h
      injection h with hdb hrid
      subst hdb
      rfl
    | false =>
      rw [upsertRecordStmt_fkErrEq n ty t hf hany] at h
      cases h

theorem employees_upsertAttendanceTx_ok {db db' : DB} {i n ty d : String} {t : Nat}
    {rid : Nat} (h : upsertAttendanceTx db i n ty d t none none = .ok (db', rid)) :
    db'.employees = (upsertEmployeeStmt db i n t).employees := by
  rw [upsertAttendanceTx_run] at h
  exact employees_upsertRecordStmt_ok h

theorem filterOther_upsertEmployeeStmt (db : DB) (i n : String) (t : Nat) :
    (upsertEmployeeStmt db i n t).employees.filter (fun e => !(e.emp_id == i)) =
      db.employees.filter (fun e => !(e.emp_id == i)) := by
  rw [employees_upsertEmployeeStmt]
  split
  · exact filter_not_map_ite (fun e : Employee => e.emp_id == i)
      (fun e : Employee => { e with name := n, updated_at := t })
      (fun e => rfl) db.employees
  · rw [List.filter_append]
    have hnil : (List.filter (fun e => !(e.emp_id == i))
        [{ emp_id := i, name := n, created_at := t, updated_at := t }] :
          List Employee) = [] := by
      simp
    rw [hnil, List.append_nil]

/-- C1: once field validation passes, a failure of either statement of the
combined upsert rolls the whole transaction back — the handler answers 500
with the underlying error message and the state the caller observes is the
untouched original — while with no failure both writes commit together and
the handler answers 200 with the returned record id. -/
theorem spec_C1_transaction_atomic (db : DB)
    (emp_id emp_name attendance_type date : Option String) (now : Nat)
    (fail1 fail2 : Option String)
    (hv : (falsy emp_id || falsy emp_name || falsy attendance_type || falsy date) = false) :
    (∀ msg, fail1 = some msg →
      postAttendance db emp_id emp_name attendance_type date now fail1 fail2 =
        ({ status := 500, errMsg := some msg, recId := none }, db)) ∧
    (∀ msg, fail1 = none → fail2 = some msg →
      postAttendance db emp_id emp_name attendance_type date now fail1 fail2 =
        ({ status := 500, errMsg := some msg, recId := none }, db)) ∧
    (fail1 = none → fail2 = none →
      ∃ db' rid,
        upsertRecordStmt
          (upsertEmployeeStmt db (emp_id.getD "") (emp_name.getD "") now)
          (emp_id.getD "") (emp_name.getD "") (attendance_type.getD "")
          (date.getD "") now = .ok (db', rid) ∧
        postAttendance db emp_id emp_name attendance_type date now fail1 fail2 =
          ({ status := 200, errMsg := none, recId := some rid }, db')) := by
  have hv' : ¬((falsy emp_id || falsy emp_name || falsy attendance_type || falsy date)
      = true) := by
    rw [hv]
    exact Bool.false_ne_true
  refine ⟨?_, ?_, ?_⟩
  · intro msg h1
    subst h1
    unfold postAttendance
    rw [if_neg hv', upsertAttendanceTx_fail1]
  · intro msg h1 h2
    subst h1
    subst h2
    unfold postAttendance
    rw [if_neg hv', upsertAttendanceTx_fail2]
  · intro h1 h2
    subst h1
    subst h2
    obtain ⟨db', rid, hok⟩ := upsertAttendanceTx_ok_ex db (emp_id.getD "")
      (emp_name.getD "") (attendance_type.getD "") (date.getD "") now
    refine ⟨db', rid, ?_, ?_⟩
    · rw [← upsertAttendanceTx_run]
      exact hok
    · unfold postAttendance
      rw [if_neg hv', hok]

theorem spec_C1_transaction_atomic_witness :
    postAttendance emptyDB (some "E1") (some "Alice") (some "WFO")
        (some "2024-01-10") 5 (some "disk full") none =
      ({ status := 500, errMsg := some "disk full", recId := none }, emptyDB) ∧
    (∃ db' rid,
      upsertRecordStmt (upsertEmployeeStmt emptyDB "E1" "Alice" 5)
        "E1" "Alice" "WFO" "2024-01-10" 5 = .ok (db', rid) ∧
      postAttendance emptyDB (some "E1") (some "Alice") (some "WFO")
          (some "2024-01-10") 5 none none =
        ({ status := 200, errMsg := none, recId := some rid }, db')) :=
  ⟨(spec_C1_transaction_atomic emptyDB (some "E1") (some "Alice") (some "WFO")
      (some "2024-01-10") 5 (some "disk full") none (by decide)).1 "disk full" rfl,
   (spec_C1_transaction_atomic emptyDB (some "E1") (some "Alice") (some "WFO")
      (some "2024-01-10") 5 none none (by decide)).2.2 rfl rfl⟩

/-- C10: a successful attendance upsert for `(i, d)` leaves every employee
row other than `i` and every attendance record with a key other than
`(i, d)` unchanged (same rows in the same order). -/
theorem spec_C10_frame (db db' : DB) (i n ty d : String) (t : Nat) (rid : Nat)
    (hkeys : uniqueKeys db)
    (h : upsertAttendanceTx db i n ty d t none none = .ok (db', rid)) :
    db'.employees.filter (fun e => !(e.emp_id == i)) =
      db.employees.filter (fun e => !(e.emp_id == i)) ∧
    db'.records.filter (fun r => !(keyMatch i d r)) =
      db.records.filter (fun r => !(keyMatch i d r)) := by
  obtain ⟨he, _, hnk, _, _⟩ := upsertAttendanceTx_ok_spec hkeys h
  refine ⟨?_, hnk⟩
  rw [he]
  exact filterOther_upsertEmployeeStmt db i n t

theorem spec_C10_frame_witness :
    ({ employees := [{ emp_id := "E2", name := "Bob", created_at := 0, updated_at := 0 },
                     { emp_id := "E1", name := "Alice", created_at := 5, updated_at := 5 }],
       records := [{ id := 1, emp_id := "E2", emp_name := "Bob",
                     attendance_type := "WFH", date := "2024-01-09", timestamp := 0 },
                   { id := 2, emp_id := "E1", emp_name := "Alice",
                     attendance_type := "WFO", date := "2024-01-10", timestamp := 5 }],
       nextId := 3 } : DB).employees.filter (fun e => !(e.emp_id == "E1")) =
      ({ employees := [{ emp_id := "E2", name := "Bob", created_at := 0, updated_at := 0 }],
         records := [{ id := 1, emp_id := "E2", emp_name := "Bob",
                       attendance_type := "WFH", date := "2024-01-09", timestamp := 0 }],
         nextId := 2 } : DB).employees.filter (fun e => !(e.emp_id == "E1")) ∧
    ({ employees := [{ emp_id := "E2", name := "Bob", created_at := 0, updated_at := 0 },
                     { emp_id := "E1", name := "Alice", created_at := 5, updated_at := 5 }],
       records := [{ id := 1, emp_id := "E2", emp_name := "Bob",
                     attendance_type := "WFH", date := "2024-01-09", timestamp := 0 },
                   { id := 2, emp_id := "E1", emp_name := "Alice",
                     attendance_type := "WFO", date := "2024-01-10", timestamp := 5 }],
       nextId := 3 } : DB).records.filter (fun r => !(keyMatch "E1" "2024-01-10" r)) =
      ({ employees := [{ emp_id := "E2", name := "Bob", created_at := 0, updated_at := 0 }],
         records := [{ id := 1, emp_id := "E2", emp_name := "Bob",
                       attendance_type := "WFH", date := "2024-01-09", timestamp := 0 }],
         nextId := 2 } : DB).records.filter (fun r => !(keyMatch "E1" "2024-01-10" r)) :=
  spec_C10_frame
    { employees := [{ emp_id := "E2", name := "Bob", created_at := 0, updated_at := 0 }],
      records := [{ id := 1, emp_id := "E2", emp_name := "Bob",
                    attendance_type := "WFH", date := "2024-01-09", timestamp := 0 }],
      nextId := 2 }
    { employees := [{ emp_id := "E2", name := "Bob", created_at := 0, updated_at := 0 },
                    { emp_id := "E1", name := "Alice", created_at := 5, updated_at := 5 }],
      records := [{ id := 1, emp_id := "E2", emp_name := "Bob",
                    attendance_type := "WFH", date := "2024-01-09", timestamp := 0 },
                  { id := 2, emp_id := "E1", emp_name := "Alice",
                    attendance_type := "WFO", date := "2024-01-10", timestamp := 5 }],
      nextId := 3 }
    "E1" "Alice" "WFO" "2024-01-10" 5 2 (by unfold uniqueKeys; decide) rfl

/-- C3: in every reachable state each attendance record's employee id
references an existing employee, and a successful attendance upsert for a
not-yet-known employee id creates that employee with the supplied name. -/
theorem spec_C3_referential_integrity (db db' : DB) (i n ty d : String) (t : Nat)
    (rid : Nat) :
    (Reachable db → refIntegrity db) ∧
    (db.employees.any (fun e => e.emp_id == i) = false →
      upsertAttendanceTx db i n ty d t none none = .ok (db', rid) →
      ∃ e ∈ db'.employees, e.emp_id = i ∧ e.name = n) := by
  constructor
  · intro h
    exact (reachable_inv h).2.2.2.2
  · intro _ h
    rw [employees_upsertAttendanceTx_ok h]
    exact memSelf_upsertEmployeeStmt db i n t

theorem spec_C3_referential_integrity_witness :
    refIntegrity emptyDB ∧
    ∃ e ∈ ({ employees := [{ emp_id := "E1", name := "Alice", created_at := 5, updated_at := 5 }],
             records := [{ id := 1, emp_id := "E1", emp_name := "Alice",
                           attendance_type := "WFO", date := "2024-01-10", timestamp := 5 }],
             nextId := 2 } : DB).employees, e.emp_id = "E1" ∧ e.name = "Alice" :=
  ⟨(spec_C3_referential_integrity emptyDB emptyDB "E1" "Alice" "WFO" "2024-01-10" 5 1).1
     ⟨[], rfl⟩,
   (spec_C3_referential_integrity emptyDB
      { employees := [{ emp_id := "E1", name := "Alice", created_at := 5, updated_at := 5 }],
        records := [{ id := 1, emp_id := "E1", emp_name := "Alice",
                      attendance_type := "WFO", date := "2024-01-10", timestamp := 5 }],
        nextId := 2 } "E1" "Alice" "WFO" "2024-01-10" 5 1).2 rfl rfl⟩

/-- C2: every reachable state has at most one attendance record per
`(emp_id, date)` pair, and a second upsert for the same employee and date
keeps the number of records, returns the id of the first write, and leaves
the single record for that key carrying the later name, type and
timestamp. -/
theorem spec_C2_unique_key_overwrite (db db1 db2 : DB) (i n1 ty1 n2 ty2 d : String)
    (t1 t2 : Nat) (id1 id2 : Nat) :
    (Reachable db → uniqueKeys db) ∧
    (Inv db →
      upsertAttendanceTx db i n1 ty1 d t1 none none = .ok (db1, id1) →
      upsertAttendanceTx db1 i n2 ty2 d t2 none none = .ok (db2, id2) →
      id2 = id1 ∧ db2.records.length = db1.records.length ∧
      db2.records.filter (keyMatch i d) =
        [{ id := id1, emp_id := i, emp_name := n2, attendance_type := ty2,
           date := d, timestamp := t2 }]) := by
  constructor
  · intro h
    exact (reachable_inv h).2.1
  · intro hInv h1 h2
    obtain ⟨_, hkey1, _, _, _⟩ := upsertAttendanceTx_ok_spec hInv.2.1 h1
    have hInv1 : Inv db1 := inv_upsertAttendanceTx hInv h1
    obtain ⟨_, hkey2, _, hsome2, _⟩ := upsertAttendanceTx_ok_spec hInv1.2.1 h2
    have hfind : db1.records.find? (keyMatch i d) =
        some { id := id1, emp_id := i, emp_name := n1, attendance_type := ty1,
               date := d, timestamp := t1 } :=
      find?_of_filter_eq_singleton db1.records hkey1
    obtain ⟨hid, hlen⟩ := hsome2 _ hfind
    have hid' : id2 = id1 := hid
    refine ⟨hid', hlen, ?_⟩
    rw [hkey2, hid']

theorem spec_C2_unique_key_overwrite_witness :
    uniqueKeys emptyDB ∧
    (1 = 1 ∧
     ({ employees := [{ emp_id := "E1", name := "Alice", created_at := 1, updated_at := 2 }],
        records := [{ id := 1, emp_id := "E1", emp_name := "Alice",
                      attendance_type := "WFH", date := "2024-01-10", timestamp := 2 }],
        nextId := 2 } : DB).records.length =
       ({ employees := [{ emp_id := "E1", name := "Alice", created_at := 1, updated_at := 1 }],
          records := [{ id := 1, emp_id := "E1", emp_name := "Alice",
                        attendance_type := "WFO", date := "2024-01-10", timestamp := 1 }],
          nextId := 2 } : DB).records.length ∧
     ({ employees := [{ emp_id := "E1", name := "Alice", created_at := 1, updated_at := 2 }],
        records := [{ id := 1, emp_id := "E1", emp_name := "Alice",
                      attendance_type := "WFH", date := "2024-01-10", timestamp := 2 }],
        nextId := 2 } : DB).records.filter (keyMatch "E1" "2024-01-10") =
       [{ id := 1, emp_id := "E1", emp_name := "Alice",
          attendance_type := "WFH", date := "2024-01-10", timestamp := 2 }]) :=
  ⟨(spec_C2_unique_key_overwrite emptyDB emptyDB emptyDB "E1" "Alice" "WFO" "Alice"
      "WFH" "2024-01-10" 1 2 1 1).1 ⟨[], rfl⟩,
   (spec_C2_unique_key_overwrite emptyDB
      { employees := [{ emp_id := "E1", name := "Alice", created_at := 1, updated_at := 1 }],
        records := [{ id := 1, emp_id := "E1", emp_name := "Alice",
                      attendance_type := "WFO", date := "2024-01-10", timestamp := 1 }],
        nextId := 2 }
      { employees := [{ emp_id := "E1", name := "Alice", created_at := 1, updated_at := 2 }],
        records := [{ id := 1, emp_id := "E1", emp_name := "Alice",
                      attendance_type := "WFH", date := "2024-01-10", timestamp := 2 }],
        nextId := 2 }
      "E1" "Alice" "WFO" "Alice" "WFH" "2024-01-10" 1 2 1 1).2 inv_emptyDB rfl rfl⟩

/-! ### Statistics -/

theorem sum_count_dedup (l : List String) :
    ((l.dedup).map (fun t => l.count t)).sum = l.length := by
  have hnd : l.dedup.Nodup := List.nodup_dedup l
  have h1 := List.sum_toFinset (fun t => l.count t) hnd
  have h2 : l.dedup.toFinset = l.toFinset := by
    apply Finset.ext
    intro a
    simp
  rw [← h1, h2]
  exact List.sum_toFinset_count_eq_length l

theorem computeStats_def (db : DB) :
    computeStats db =
      { totalEmployees := db.employees.length
        totalRecords := db.records.length
        wfoRecords := db.records.countP (fun r => r.attendance_type == "WFO")
        wfhRecords := db.records.countP (fun r => r.attendance_type == "WFH")
        attendanceByType :=
          ((db.records.map (fun r : AttendanceRecord => r.attendance_type)).dedup.map (fun t =>
            (t, db.records.countP (fun r : AttendanceRecord => r.attendance_type == t)))).mergeSort
            (fun a b => decide (b.2 ≤ a.2)) } := rfl

theorem countP_type_eq_count (db : DB) (t0 : String) :
    db.records.countP (fun r => r.attendance_type == t0) =
      (db.records.map (fun r : AttendanceRecord => r.attendance_type)).count t0 := by
  rw [List.count_eq_countP, List.countP_map]
  rfl

/-- C6: the statistics response is internally consistent — the total record
count is the sum of the per-type group counts, the WFO / WFH counters agree
with the corresponding group (and are 0 when the group is absent), the
groups list one entry per distinct attendance type, and they are ordered by
count descending. -/
theorem spec_C6_stats_consistent (db : DB) :
    (computeStats db).totalRecords =
      ((computeStats db).attendanceByType.map (fun p => p.2)).sum ∧
    (∀ p ∈ (computeStats db).attendanceByType,
      (p.1 = "WFO" → p.2 = (computeStats db).wfoRecords) ∧
      (p.1 = "WFH" → p.2 = (computeStats db).wfhRecords)) ∧
    ("WFO" ∉ (computeStats db).attendanceByType.map (fun p => p.1) →
      (computeStats db).wfoRecords = 0) ∧
    ("WFH" ∉ (computeStats db).attendanceByType.map (fun p => p.1) →
      (computeStats db).wfhRecords = 0) ∧
    ((computeStats db).attendanceByType.map (fun p => p.1)).Nodup ∧
    (∀ t0, t0 ∈ (computeStats db).attendanceByType.map (fun p => p.1) ↔
      ∃ r ∈ db.records, r.attendance_type = t0) ∧
    (computeStats db).attendanceByType.Pairwise (fun p q => q.2 ≤ p.2) := by
  rw [computeStats_def]
  dsimp only
  have hperm : List.Perm
      (((db.records.map (fun r : AttendanceRecord => r.attendance_type)).dedup.map (fun t =>
        (t, db.records.countP (fun r : AttendanceRecord => r.attendance_type == t)))).mergeSort
        (fun a b => decide (b.2 ≤ a.2)))
      ((db.records.map (fun r : AttendanceRecord => r.attendance_type)).dedup.map (fun t =>
        (t, db.records.countP (fun r : AttendanceRecord => r.attendance_type == t)))) :=
    List.mergeSort_perm _ _
  have hfst : (((db.records.map (fun r : AttendanceRecord => r.attendance_type)).dedup.map (fun t =>
      (t, db.records.countP (fun r : AttendanceRecord => r.attendance_type == t)))).map (fun p => p.1)) =
      (db.records.map (fun r : AttendanceRecord => r.attendance_type)).dedup := by
    rw [List.map_map]
    exact List.map_id _
  refine ⟨?_, ?_, ?_, ?_, ?_, ?_, ?_⟩
  · rw [(hperm.map (fun p => p.2)).sum_eq, List.map_map]
    have hsnd : ((db.records.map (fun r : AttendanceRecord => r.attendance_type)).dedup.map
        ((fun p : String × Nat => p.2) ∘ (fun t =>
          (t, db.records.countP (fun r : AttendanceRecord => r.attendance_type == t))))) =
        (db.records.map (fun r : AttendanceRecord => r.attendance_type)).dedup.map (fun t =>
          (db.records.map (fun r : AttendanceRecord => r.attendance_type)).count t) := by
      apply List.map_congr_left
      intro t0 _
      exact countP_type_eq_count db t0
    rw [hsnd, sum_count_dedup, List.length_map]
  · intro p hp
    rw [List.mem_mergeSort] at hp
    obtain ⟨t0, _, rfl⟩ := List.mem_map.mp hp
    constructor
    · intro h1
      have ht : t0 = "WFO" := h1
      subst ht
      rfl
    · intro h1
      have ht : t0 = "WFH" := h1
      subst ht
      rfl
  · intro hno
    rw [(hperm.map (fun p => p.1)).mem_iff, hfst, List.mem_dedup] at hno
    rw [countP_type_eq_count]
    exact List.count_eq_zero.mpr hno
  · intro hno
    rw [(hperm.map (fun p => p.1)).mem_iff, hfst, List.mem_dedup] at hno
    rw [countP_type_eq_count]
    exact List.count_eq_zero.mpr hno
  · rw [(hperm.map (fun p => p.1)).nodup_iff, hfst]
    exact List.nodup_dedup _
  · intro t0
    rw [(hperm.map (fun p => p.1)).mem_iff, hfst, List.mem_dedup, List.mem_map]
  · have hs := List.sorted_mergeSort countDescLe_trans countDescLe_total
      ((db.records.map (fun r : AttendanceRecord => r.attendance_type)).dedup.map (fun t =>
        (t, db.records.countP (fun r : AttendanceRecord => r.attendance_type == t))))
    exact hs.imp (fun h => of_decide_eq_true h)

theorem spec_C6_stats_consistent_witness :
    (computeStats
        { employees := [{ emp_id := "E1", name := "Alice", created_at := 0, updated_at := 0 }],
          records := [{ id := 1, emp_id := "E1", emp_name := "Alice",
                        attendance_type := "WFO", date := "2024-01-10", timestamp := 0 },
                      { id := 2, emp_id := "E1", emp_name := "Alice",
                        attendance_type := "WFH", date := "2024-01-11", timestamp := 1 }],
          nextId := 3 }).totalRecords =
      ((computeStats
        { employees := [{ emp_id := "E1", name := "Alice", created_at := 0, updated_at := 0 }],
          records := [{ id := 1, emp_id := "E1", emp_name := "Alice",
                        attendance_type := "WFO", date := "2024-01-10", timestamp := 0 },
                      { id := 2, emp_id := "E1", emp_name := "Alice",
                        attendance_type := "WFH", date := "2024-01-11", timestamp := 1 }],
          nextId := 3 }).attendanceByType.map (fun p => p.2)).sum ∧
    (computeStats
        { employees := [{ emp_id := "E1", name := "Alice", created_at := 0, updated_at := 0 }],
          records := [{ id := 1, emp_id := "E1", emp_name := "Alice",
                        attendance_type := "WFO", date := "2024-01-10", timestamp := 0 },
                      { id := 2, emp_id := "E1", emp_name := "Alice",
                        attendance_type := "WFH", date := "2024-01-11", timestamp := 1 }],
          nextId := 3 }).attendanceByType.Pairwise (fun p q => q.2 ≤ p.2) :=
  ⟨(spec_C6_stats_consistent
      { employees := [{ emp_id := "E1", name := "Alice", created_at := 0, updated_at := 0 }],
        records := [{ id := 1, emp_id := "E1", emp_name := "Alice",
                      attendance_type := "WFO", date := "2024-01-10", timestamp := 0 },
                    { id := 2, emp_id := "E1", emp_name := "Alice",
                      attendance_type := "WFH", date := "2024-01-11", timestamp := 1 }],
        nextId := 3 }).1,
   (spec_C6_stats_consistent
      { employees := [{ emp_id := "E1", name := "Alice", created_at := 0, updated_at := 0 }],
        records := [{ id := 1, emp_id := "E1", emp_name := "Alice",
                      attendance_type := "WFO", date := "2024-01-10", timestamp := 0 },
                    { id := 2, emp_id := "E1", emp_name := "Alice",
                      attendance_type := "WFH", date := "2024-01-11", timestamp := 1 }],
        nextId := 3 }).2.2.2.2.2.2⟩

theorem spec_C9_listRange_witness :
    (sampleRecord1 ∈ listRange sampleDB "E1" "2024-01-01" "2024-01-31" ↔
      (sampleRecord1 ∈ sampleDB.records ∧ sampleRecord1.emp_id = "E1" ∧
        "2024-01-01" ≤ sampleRecord1.date ∧ sampleRecord1.date ≤ "2024-01-31")) ∧
    (listRange sampleDB "E1" "2024-01-01" "2024-01-31").Pairwise
      (fun a b => b.date ≤ a.date) :=
  ⟨(spec_C9_listRange sampleDB "E1" "2024-01-01" "2024-01-31").1 sampleRecord1,
   (spec_C9_listRange sampleDB "E1" "2024-01-01" "2024-01-31").2⟩

end Attendance
